import Mathlib

/-!
Shallow embedding of the mcm package manager (src/mcm/mcm.py) and proofs
about its lifecycle operations.

Modelling conventions:
* Python dicts become association lists (`alookup`/`aset`/`adel`), preserving
  insertion order as toml/json dicts do.
* The file system and the persisted cache file are folded into a `World`
  value; every `json.dump` of the cache is a `write_cache` step that both
  updates the world and appends a `cacheWrite` event to the trace.
* External effects (subprocess runs, git clones, tarball fetches, file
  removals) are recorded as `Event`s in the order they happen.
* Python exceptions become `Except Err` results; the state reached so far is
  kept alongside the error, like the real file system after a crash.
* Python's `re.match` is modelled by a derivative-based matcher over the
  regex fragment mcm actually receives (literals, `.`, `*`, leading `^`,
  trailing `$`); `re.match` only anchors at the start, so `reMatch` accepts
  when some prefix of the string matches.
* The `scm` subprocess argv is a `List (Option String)`: Python builds the
  list with values that can be `None` (the `-B` value is `self.hostname`).
-/

deriving instance DecidableEq for Except

namespace Mcm

/-- Regex abstract syntax, modelling the fragment of Python `re` used by mcm. -/
inductive Regex where
  | emp : Regex
  | eps : Regex
  | chr : Char → Regex
  | dot : Regex
  | seq : Regex → Regex → Regex
  | alt : Regex → Regex → Regex
  | star : Regex → Regex
deriving DecidableEq, Repr

/-- Does the regex accept the empty word? -/
def nullable : Regex → Bool
  | .emp => false
  | .eps => true
  | .chr _ => false
  | .dot => false
  | .seq a b => nullable a && nullable b
  | .alt a b => nullable a || nullable b
  | .star _ => true

/-- Brzozowski derivative of a regex by one character. -/
def deriv : Regex → Char → Regex
  | .emp, _ => .emp
  | .eps, _ => .emp
  | .chr c, a => if a = c then .eps else .emp
  | .dot, _ => .eps
  | .seq r1 r2, a =>
      if nullable r1 then .alt (.seq (deriv r1 a) r2) (deriv r2 a)
      else .seq (deriv r1 a) r2
  | .alt r1 r2, a => .alt (deriv r1 a) (deriv r2 a)
  | .star r, a => .seq (deriv r a) (.star r)

/-- Whole-word acceptance (the semantics of Python `re.fullmatch`). -/
def accepts (r : Regex) : List Char → Bool
  | [] => nullable r
  | c :: s => accepts (deriv r c) s

/-- Does the regex accept some prefix of the word?  This is the truthiness
of Python `re.match`, which anchors only at the start of the string. -/
def matchHere (r : Regex) : List Char → Bool
  | [] => nullable r
  | c :: s => nullable r || matchHere (deriv r c) s

/-- A parsed pattern: the body regex plus whether the pattern ended in `$`. -/
structure PRegex where
  re : Regex
  anchoredEnd : Bool
deriving DecidableEq, Repr

/-- Parse a single regex atom: `.` or a literal character.  Metacharacters
that the model does not support make the whole pattern unparseable. -/
def parseAtom (c : Char) : Option Regex :=
  if c = '*' ∨ c = '^' ∨ c = '$' ∨ c = '\\' then none
  else if c = '.' then some Regex.dot else some (Regex.chr c)

/-- Parse a sequence of atoms with optional postfix `*`. -/
def parseSeq : List Char → Option Regex
  | [] => some .eps
  | [c] =>
    match parseAtom c with
    | none => none
    | some atom => some (.seq atom .eps)
  | c :: c2 :: rest =>
    match parseAtom c with
    | none => none
    | some atom =>
      if c2 = '*' then (parseSeq rest).map (fun r => .seq (.star atom) r)
      else (parseSeq (c2 :: rest)).map (fun r => .seq atom r)

/-- Parse a Python regex pattern (the supported fragment): an optional
leading `^` (redundant under `re.match`), a body of atoms with `*`, and an
optional trailing `$`. -/
def parseRegex (p : String) : Option PRegex :=
  let cs := p.data
  let cs := if cs.head? = some '^' then cs.tail else cs
  let anchored := cs.getLast? = some '$'
  let cs := if anchored then cs.dropLast else cs
  (parseSeq cs).map (fun r => ⟨r, anchored⟩)

/-- Truthiness of Python `re.match pattern s` for the supported fragment:
anchored at the start only, so it succeeds when a prefix of `s` matches
(the whole of `s` when the pattern ends in `$`). -/
def reMatch (p s : String) : Bool :=
  match parseRegex p with
  | none => false
  | some pr => if pr.anchoredEnd then accepts pr.re s.data else matchHere pr.re s.data

/-- Truthiness of Python `re.fullmatch pattern s`: the regex must match the
entire string. -/
def reFullmatch (p s : String) : Bool :=
  match parseRegex p with
  | none => false
  | some pr => accepts pr.re s.data

/-- One record of the persisted cache, `cache[meta]['packages'][pkg]`.
Besides `status` the Python dict may or may not carry each key, hence the
`Option` fields; `hostname` can be present with value `None`, hence the
nested `Option`. -/
structure PackageCache where
  status : String
  package_dir : Option String := none
  packages_dir : Option String := none
  target_dir : Option String := none
  tags : Option (List String) := none
  hostname : Option (Option String) := none
deriving DecidableEq, Repr

/-- One package definition inside a meta-package descriptor.
`installation_mechanisms` maps mechanism name to its `uri` value;
`dependencies` is the list of `(meta-package, package-regex)` pairs;
`target` is the ordered candidate target-directory list. -/
structure Package where
  installation_mechanisms : Option (List (String × String)) := none
  dependencies : Option (List (String × String)) := none
  target : Option (List String) := none
deriving DecidableEq, Repr

/-- A parsed meta-package descriptor (the toml document). -/
structure Descriptor where
  name : String
  packages : List (String × Package) := []
  uri : Option String := none
deriving DecidableEq, Repr

/-- The persisted cache document: meta-package name to package name to
record.  (The constant `'packages'` level of the Python json is elided:
the code always reads and writes through it.) -/
abbrev CacheMap := List (String × List (String × PackageCache))

/-- Errors: each constructor corresponds to one `raise` site in mcm.py
(or to a runtime error Python itself would raise at that point). -/
inductive Err where
  | notLoaded : String → Err
  | cacheMissingKey : String → String → Err
  | cacheBadStatus : String → String → String → Err
  | cacheInProgress : String → String → String → Err
  | alreadyInstalled : String → String → Err
  | alreadyAbsent : String → String → Err
  | impossible : Err
  | scmFailed : Nat → Err
  | noValidTarget : String → String → Err
  | noMechanisms : String → Err
  | noSupportedMechanism : List String → Err
  | unsupportedMechanisms : List String → Err
  | keyError : Err
  | typeError : Err
  | validationError : Err
  | assertFailed : Err
  | fileNotFound : String → Err
  | outOfFuel : Err
deriving DecidableEq, Repr

/-- Externally observable side effects, in chronological order. -/
inductive Event where
  | cacheWrite : CacheMap → Event
  | scmRun : List (Option String) → Event
  | gitClone : String → String → Event
  | urlFetch : String → Event
  | tarExtract : String → String → Event
  | rmtree : String → Event
  | removeFile : String → Event
  | writeFile : String → Event
deriving DecidableEq, Repr

/-- The mutable outside world: descriptor files in the configs dir (path
and parsed content), the set of existing package content directories, the
persisted cache file, and which candidate target directories exist. -/
structure World where
  configs : List (String × Descriptor) := []
  dirs : List String := []
  cache : CacheMap := []
  target_dirs_existing : List String := []
deriving DecidableEq, Repr

/-- Program state: the world plus the trace of effects so far. -/
structure St where
  world : World
  events : List Event
deriving DecidableEq, Repr

/-- Result of an operation: Python-exception-or-value, plus the state the
world was left in (errors do not roll anything back). -/
abbrev Res (α : Type) := Except Err α × St

/-- Fixed configuration of one `Mcm` instance plus the ambient build and
external-tool behaviour: which acquisition capabilities are importable,
the exit code `scm` returns for a given argv, and what fetching and
schema-validating a descriptor URI yields. -/
structure Env where
  packages_dir : String
  configs_dir : String
  default_target : String
  hostname : Option String
  tags : List String
  usingGitpython : Bool
  usingTarfile : Bool
  scmExit : List (Option String) → Nat
  fetch : String → Descriptor
  validate : Descriptor → Bool

/-- Association-list lookup (Python dict `d[k]`, as `Option`). -/
def alookup {α : Type} : List (String × α) → String → Option α
  | [], _ => none
  | e :: rest, k => if e.1 == k then some e.2 else alookup rest k

/-- Association-list update (Python dict `d[k] = v`): replace the binding
if the key is present, else append it. -/
def aset {α : Type} : List (String × α) → String → α → List (String × α)
  | [], k, v => [(k, v)]
  | e :: rest, k, v => if e.1 == k then (k, v) :: rest else e :: aset rest k v

/-- Association-list deletion (Python `del d[k]`). -/
def adel {α : Type} : List (String × α) → String → List (String × α)
  | [], _ => []
  | e :: rest, k => if e.1 == k then adel rest k else e :: adel rest k

/-- `cache[meta]['packages'][pkg]`, as an `Option`. -/
def cache_get_pkg (c : CacheMap) (m p : String) : Option PackageCache :=
  (alookup c m).bind (fun ps => alookup ps p)

/-- Lines 123-126: create the empty packages map for `meta` when absent. -/
def ensure_meta (c : CacheMap) (m : String) : CacheMap :=
  if (alookup c m).isSome then c else aset c m []

/-- `cache[meta]['packages'][pkg] = record` (meta level assumed ensured by
the caller, as in the source). -/
def cache_set_pkg (c : CacheMap) (m p : String) (pc : PackageCache) : CacheMap :=
  aset c m (aset ((alookup c m).getD []) p pc)

/-- `del cache[meta]['packages'][pkg]`. -/
def cache_del_pkg (c : CacheMap) (m p : String) : CacheMap :=
  aset c m (adel ((alookup c m).getD []) p)

/-- Persist the whole cache document (`json.dump(cache, f)`): overwrite the
cache file and record the write in the trace. -/
def write_cache (s : St) (c : CacheMap) : St :=
  { world := { s.world with cache := c }, events := s.events ++ [Event.cacheWrite c] }

/-- Append a non-cache event to the trace. -/
def emit (s : St) (e : Event) : St :=
  { s with events := s.events ++ [e] }

/-- `meta_package_name + '.' + package_name`. -/
def joined_package_name (m p : String) : String := m ++ "." ++ p

/-- `os.path.join(self.mcm_package_packages_dir, joined_package_name)`. -/
def package_dir_of (env : Env) (m p : String) : String :=
  env.packages_dir ++ "/" ++ joined_package_name m p

/-- The legal values of the `status` field (line 74). -/
def package_statuses : List String :=
  ["notloaded", "loaded", "midinstall", "midremove", "installed"]

/-- `Mcm._find_meta_package_by_name` (lines 76-81): scan the configs dir
for a descriptor file whose `name` matches; return its path. -/
def find_meta_package_by_name (w : World) (name : String) : Option String :=
  (w.configs.find? (fun e => e.2.name == name)).map (fun e => e.1)

/-- `Mcm._get_meta_package_by_name` (lines 83-89): same scan, returning the
parsed descriptor. -/
def get_meta_package_by_name (w : World) (name : String) : Option Descriptor :=
  (w.configs.find? (fun e => e.2.name == name)).map (fun e => e.2)

/-- `toml.load file_path` for a path obtained from the configs dir. -/
def config_at (w : World) (path : String) : Option Descriptor :=
  (w.configs.find? (fun e => e.1 == path)).map (fun e => e.2)

/-- `Mcm._get_package_cache` (lines 96-118): `notloaded` when the package
directory does not exist; otherwise the persisted record, rejecting a
missing key or an out-of-enum status as cache corruption. -/
def get_package_cache (env : Env) (w : World) (m p : String) : Except Err PackageCache :=
  if w.dirs.contains (package_dir_of env m p) then
    match cache_get_pkg w.cache m p with
    | none => .error (.cacheMissingKey m p)
    | some pc =>
      if package_statuses.contains pc.status then .ok pc
      else .error (.cacheBadStatus m p pc.status)
  else .ok { status := "notloaded" }

/-- The `scm ... install meta.pkg` argv built from a cache record
(lines 160-173).  Any missing record key is Python's `KeyError`. -/
def scm_install_argv (pc : PackageCache) (m p : String) : Except Err (List (Option String)) :=
  match pc.target_dir, pc.packages_dir, pc.hostname, pc.tags with
  | some td, some pd, some hv, some tg =>
    .ok ([some "scm", some "-f", some "-y", some "-t", some td, some "-d", some pd]
      ++ (if hv.isSome then [some "-B", hv] else [])
      ++ (tg.map (fun t => [some "-T", some t])).flatten
      ++ [some "install", some (joined_package_name m p)])
  | _, _, _, _ => .error .keyError

/-- The `scm ... remove meta.pkg` argv (lines 213-226).  The `-B` flag is
added when the recorded hostname is non-null, but its value is the
engine's current `self.hostname` (line 220). -/
def scm_remove_argv (env : Env) (td : String) (hostname : Option String)
    (tags : List String) (m p : String) : List (Option String) :=
  [some "scm", some "-f", some "-y", some "-t", some td, some "-d", some env.packages_dir]
  ++ (if hostname.isSome then [some "-B", env.hostname] else [])
  ++ (tags.map (fun t => [some "-T", some t])).flatten
  ++ [some "remove", some (joined_package_name m p)]

/-- `Mcm._invoke_scm_install` (lines 120-189): persist `midinstall`, run
`scm install`, and persist `installed` only after a zero exit code.  With
`get_attributes_from_cache` the record is taken from the cache (reinstall);
otherwise a fresh record is created, and an already-present record is the
"Impossible - should only be invoked with uninstalled packages" error. -/
def invoke_scm_install (env : Env) (m p : String) (target_dir : Option String)
    (get_attributes_from_cache : Bool) (s : St) : Res Unit :=
  let cache0 := ensure_meta s.world.cache m
  let package_dir := package_dir_of env m p
  let pcE : Except Err PackageCache :=
    if get_attributes_from_cache then
      match cache_get_pkg cache0 m p with
      | none => .error .keyError
      | some pc => .ok { pc with status := "midinstall" }
    else
      if (cache_get_pkg cache0 m p).isSome then .error .impossible
      else .ok { status := "midinstall",
                 package_dir := some package_dir,
                 packages_dir := some env.packages_dir,
                 tags := some env.tags,
                 hostname := some env.hostname,
                 target_dir := some (target_dir.getD env.default_target) }
  match pcE with
  | .error e => (.error e, s)
  | .ok pc =>
    let cache1 := cache_set_pkg cache0 m p pc
    let s := write_cache s cache1
    match scm_install_argv pc m p with
    | .error e => (.error e, s)
    | .ok argv =>
      let code := env.scmExit argv
      let s := emit s (.scmRun argv)
      if code ≠ 0 then (.error (.scmFailed code), s)
      else
        let pc2 := { pc with
          status := "installed"
          hostname := if env.hostname.isSome then some env.hostname else pc.hostname }
        let cache2 := cache_set_pkg cache1 m p pc2
        (.ok (), write_cache s cache2)

/-- `Mcm._invoke_scm_remove` (lines 191-239): read the record (its
`hostname` key may be absent), persist `midremove`, run `scm remove`, and
persist a fresh two-key `loaded` record only after a zero exit code. -/
def invoke_scm_remove (env : Env) (m p : String) (s : St) : Res Unit :=
  match cache_get_pkg s.world.cache m p with
  | none => (.error .keyError, s)
  | some pc =>
    match pc.package_dir, pc.target_dir, pc.tags with
    | some package_dir, some target_dir, some tags =>
      let hostname : Option String := pc.hostname.join
      let pc1 := { pc with status := "midremove" }
      let cache1 := cache_set_pkg s.world.cache m p pc1
      let s := write_cache s cache1
      let argv := scm_remove_argv env target_dir hostname tags m p
      let code := env.scmExit argv
      let s := emit s (.scmRun argv)
      if code ≠ 0 then (.error (.scmFailed code), s)
      else
        let pc2 : PackageCache := { status := "loaded", package_dir := some package_dir }
        let cache2 := cache_set_pkg s.world.cache m p pc2
        (.ok (), write_cache s cache2)
    | _, _, _ => (.error .keyError, s)

/-- `os.path.basename(urlparse(uri).path)`: the last `/`-separated segment. -/
def url_basename (uri : String) : String :=
  (uri.splitOn "/").getLastD uri

/-- The body of `Mcm.load`'s per-URI loop (lines 244-272): fetch and parse
the descriptor, skip when already loaded and `skip_if_loaded`, validate
against the schema, then `os.remove(file_path)` — unconditionally, even
when `file_path` is `None` (Python `TypeError`) — and write the new file. -/
def load_one (env : Env) (uri : String) (skip_if_loaded : Bool) (s : St) : Res Unit :=
  let d := env.fetch uri
  let s := emit s (.urlFetch uri)
  let file_name := d.name
  let file_path := find_meta_package_by_name s.world file_name
  if file_path.isSome && skip_if_loaded then (.ok (), s)
  else
    let new_file_path := env.configs_dir ++ "/" ++ url_basename uri
    if env.validate d = false then (.error .validationError, s)
    else
      match file_path with
      | none => (.error .typeError, s)
      | some fp =>
        let s : St := { world := { s.world with configs := adel s.world.configs fp },
                        events := s.events ++ [Event.removeFile fp] }
        let s : St := { world := { s.world with configs := aset s.world.configs new_file_path d },
                        events := s.events ++ [Event.writeFile new_file_path] }
        (.ok (), s)

/-- `Mcm.load` (lines 241-272) over the URI list. -/
def load (env : Env) (uri_list : List String) (skip_if_loaded : Bool) (s : St) : Res Unit :=
  match uri_list with
  | [] => (.ok (), s)
  | u :: rest =>
    match load_one env u skip_if_loaded s with
    | (.error e, s1) => (.error e, s1)
    | (.ok _, s1) => load env rest skip_if_loaded s1

/-- The selection comprehension shared by `install` (lines 301-303) and
`remove` (lines 454-456): declared packages whose name `re.match`es the
pattern, in declaration order. -/
def match_packages (d : Descriptor) (package_regex : String) : List (String × Package) :=
  d.packages.filter (fun x => reMatch package_regex x.1)

/-- The package names a selection resolves to in the source: a prefix-
anchored `re.match` against each declared name, in declaration order. -/
def resolveCode (d : Descriptor) (package_regex : String) : List String :=
  (match_packages d package_regex).map (fun x => x.1)

/-- Modelled from the spec's words for comparison (§4.2): resolution by
regular-expression full-match against the declared names. -/
def resolveSpec (d : Descriptor) (package_regex : String) : List String :=
  (d.packages.filter (fun x => reFullmatch package_regex x.1)).map (fun x => x.1)

/-- The "Ensure the packages are not installed already" loop of
`Mcm.install` (lines 305-322): per matched package, read its status;
`midinstall`/`midremove` is fatal corruption; `installed` is fatal under
`if_installed = exit`, included under `reinstall`; `notloaded`/`loaded`
is included unless `if_installed = reinstall`. -/
def install_check (env : Env) (w : World) (m : String)
    (raw : List (String × Package)) (if_installed : String) :
    Except Err (List (String × Package)) :=
  match raw with
  | [] => .ok []
  | (pname, pkg) :: rest =>
    match get_package_cache env w m pname with
    | .error e => .error e
    | .ok pc =>
      let status := pc.status
      if status = "midinstall" ∨ status = "midremove" then
        .error (.cacheInProgress m pname status)
      else
        let add1E : Except Err (List (String × Package)) :=
          if status = "installed" then
            (if if_installed = "exit" then .error (.alreadyInstalled m pname)
             else .ok (if if_installed = "reinstall" then [(pname, pkg)] else []))
          else .ok []
        match add1E with
        | .error e => .error e
        | .ok add1 =>
          let add2 := if (status = "notloaded" ∨ status = "loaded") ∧ if_installed ≠ "reinstall"
                      then [(pname, pkg)] else []
          match install_check env w m rest if_installed with
          | .error e => .error e
          | .ok tl => .ok (add1 ++ add2 ++ tl)

/-- Target-directory resolution (lines 344-358): no declared `target` list
means the engine default; otherwise the first candidate that is an
existing directory, else "No valid target dir found". -/
def target_dir_for (env : Env) (w : World) (m pname : String) (pkg : Package) :
    Except Err String :=
  match pkg.target with
  | none => .ok env.default_target
  | some ts =>
    match ts.find? (fun t => w.target_dirs_existing.contains t) with
    | some t => .ok t
    | none => .error (.noValidTarget m pname)

/-- `dirs` update for an acquisition that creates the package directory. -/
def dirs_add (dirs : List String) (d : String) : List String :=
  if dirs.contains d then dirs else dirs ++ [d]

/-- The mechanism loop of `Mcm.install` (lines 373-410): iterate ALL
declared mechanisms in order; a supported `git`/`tar` mechanism is
executed (there is no break after success), an unsupported one is
appended to `possible_installation_mechanisms`, an unrecognised name is
only logged.  Returns the recorded possible mechanisms and the final
`loaded` flag. -/
def acquire_loop (env : Env) (package_dir : String) (mechs : List (String × String))
    (s : St) : (List String × Bool) × St :=
  match mechs with
  | [] => (([], false), s)
  | (name, uri) :: rest =>
    if name = "git" then
      if env.usingGitpython = false then
        let r := acquire_loop env package_dir rest s
        (("git" :: r.1.1, r.1.2), r.2)
      else
        let s := { world := { s.world with dirs := dirs_add s.world.dirs package_dir },
                   events := s.events ++ [Event.gitClone package_dir uri] }
        let r := acquire_loop env package_dir rest s
        ((r.1.1, true), r.2)
    else if name = "tar" then
      if env.usingTarfile = false then
        let r := acquire_loop env package_dir rest s
        (("tar" :: r.1.1, r.1.2), r.2)
      else
        let s := { world := { s.world with dirs := dirs_add s.world.dirs package_dir },
                   events := s.events ++ [Event.urlFetch uri, Event.tarExtract package_dir uri] }
        let r := acquire_loop env package_dir rest s
        ((r.1.1, true), r.2)
    else
      acquire_loop env package_dir rest s

/-- Acquisition of one `notloaded` package (lines 360-416): missing or
empty mechanism list is fatal; after the loop, a package that was not
loaded fails naming either the declared mechanisms (when none of the
recognised ones were recorded as possible) or the recorded possible ones. -/
def acquire_package (env : Env) (m pname : String) (pkg : Package) (s : St) : Res Unit :=
  let package_dir := package_dir_of env m pname
  match pkg.installation_mechanisms with
  | none => (.error (.noMechanisms m), s)
  | some mechs =>
    if mechs = [] then (.error (.noMechanisms m), s)
    else
      let r := acquire_loop env package_dir mechs s
      let poss := r.1.1
      let loadedFlag := r.1.2
      let s1 := r.2
      if loadedFlag then (.ok (), s1)
      else if poss = [] then (.error (.noSupportedMechanism (mechs.map (fun x => x.1))), s1)
      else (.error (.unsupportedMechanisms poss), s1)

/-- The "Load the packages" loop of `Mcm.install` (lines 339-442): per
included package, re-read the status, resolve the target directory,
acquire when `notloaded`, then either invoke the scm bridge
(`get_attributes_from_cache` iff `if_installed = reinstall`) or, under
`load_only`, persist a bare `loaded` record. -/
def install_main_loop (env : Env) (m : String) (pkgs : List (String × Package))
    (load_only : Bool) (if_installed : String) (s : St) : Res Unit :=
  match pkgs with
  | [] => (.ok (), s)
  | (pname, pkg) :: rest =>
    match get_package_cache env s.world m pname with
    | .error e => (.error e, s)
    | .ok pc =>
      match target_dir_for env s.world m pname pkg with
      | .error e => (.error e, s)
      | .ok target_dir =>
        let step1 : Res Unit :=
          if pc.status = "notloaded" then acquire_package env m pname pkg s
          else (.ok (), s)
        match step1 with
        | (.error e, s1) => (.error e, s1)
        | (.ok _, s1) =>
          let step2 : Res Unit :=
            if load_only = false then
              invoke_scm_install env m pname (some target_dir) (if_installed = "reinstall") s1
            else
              let cache0 := ensure_meta s1.world.cache m
              let cache1 := cache_set_pkg cache0 m pname { status := "loaded" }
              (.ok (), write_cache s1 cache1)
          match step2 with
          | (.error e, s2) => (.error e, s2)
          | (.ok _, s2) => install_main_loop env m rest load_only if_installed s2

/-- The "Resolve package dependencies" loop of `Mcm.install`
(lines 324-336): recursively install each included package's declared
dependencies with `if_installed = skip`.  The recursive `self.install`
call is passed in as `instRec`. -/
def install_deps (instRec : List (String × String) → Bool → String → St → Res Unit)
    (load_only : Bool) : List (String × Package) → St → Res Unit
  | [], s => (.ok (), s)
  | (_, pkg) :: rest, s =>
    match instRec (pkg.dependencies.getD []) load_only "skip" s with
    | (.error e, s1) => (.error e, s1)
    | (.ok _, s1) => install_deps instRec load_only rest s1

/-- The per-selection loop of `Mcm.install` (lines 295-442): resolve the
descriptor, expand the pattern, run the status checks, resolve and install
dependencies (with `if_installed` forced to `skip`, line 336), then run
the main per-package loop. -/
def install_outer (env : Env)
    (instRec : List (String × String) → Bool → String → St → Res Unit) :
    List (String × String) → Bool → String → St → Res Unit
  | [], _, _, s => (.ok (), s)
  | (m, package_regex) :: rest, load_only, if_installed, s =>
    match find_meta_package_by_name s.world m with
    | none => (.error (.notLoaded m), s)
    | some file_path =>
      match config_at s.world file_path with
      | none => (.error (.notLoaded m), s)
      | some meta_package =>
        let raw := match_packages meta_package package_regex
        match install_check env s.world m raw if_installed with
        | .error e => (.error e, s)
        | .ok pkgs =>
          match install_deps instRec load_only pkgs s with
          | (.error e, s1) => (.error e, s1)
          | (.ok _, s1) =>
            match install_main_loop env m pkgs load_only if_installed s1 with
            | (.error e, s2) => (.error e, s2)
            | (.ok _, s2) => install_outer env instRec rest load_only if_installed s2

/-- `Mcm.install` (lines 293-442).  `fuel` bounds the dependency-resolution
recursion depth, which the source leaves unbounded (no cycle check); the
model returns `outOfFuel` where Python would recurse further. -/
def install (env : Env) : Nat → List (String × String) → Bool → String → St → Res Unit
  | 0, _, _, _, s => (.error .outOfFuel, s)
  | Nat.succ fuel, package_list, load_only, if_installed, s =>
    if (["exit", "skip", "reinstall"].contains if_installed) = false then
      (.error .assertFailed, s)
    else install_outer env (install env fuel) package_list load_only if_installed s

/-- The per-matched-package loop of `Mcm.remove` (lines 459-486).  Note
line 460: the status lookup passes `package_regex`, not the matched
package name.  Each matched name is processed in order: in-progress
status is fatal corruption; `notloaded`/`loaded` raises or is skipped
according to `exit_if_not_installed`; otherwise the scm bridge removes
the package, and unless `uninstall_only` the content directory is
`shutil.rmtree`d and the cache record deleted. -/
def remove_loop (env : Env) (m package_regex : String) (names : List String)
    (uninstall_only exit_if_not_installed : Bool) (s : St) : Res Unit :=
  match names with
  | [] => (.ok (), s)
  | pname :: rest =>
    match get_package_cache env s.world m package_regex with
    | .error e => (.error e, s)
    | .ok pc =>
      let status := pc.status
      if status = "midinstall" ∨ status = "midremove" then
        (.error (.cacheInProgress m pname status), s)
      else if status = "notloaded" ∨ status = "loaded" then
        if exit_if_not_installed then (.error (.alreadyAbsent m pname), s)
        else remove_loop env m package_regex rest uninstall_only exit_if_not_installed s
      else
        match invoke_scm_remove env m pname s with
        | (.error e, s1) => (.error e, s1)
        | (.ok _, s1) =>
          if uninstall_only then
            remove_loop env m package_regex rest uninstall_only exit_if_not_installed s1
          else
            match cache_get_pkg s1.world.cache m pname with
            | none => (.error .keyError, s1)
            | some pc2 =>
              match pc2.package_dir with
              | none => (.error .keyError, s1)
              | some package_dir =>
                if s1.world.dirs.contains package_dir = false then
                  (.error (.fileNotFound package_dir), s1)
                else
                  let s2 : St :=
                    { world := { s1.world with dirs := s1.world.dirs.erase package_dir },
                      events := s1.events ++ [Event.rmtree package_dir] }
                  let cache2 := cache_del_pkg s2.world.cache m pname
                  let s3 := write_cache s2 cache2
                  remove_loop env m package_regex rest uninstall_only exit_if_not_installed s3

/-- `Mcm.remove` (lines 447-486) over the selection list. -/
def remove (env : Env) (package_list : List (String × String))
    (uninstall_only exit_if_not_installed : Bool) (s : St) : Res Unit :=
  match package_list with
  | [] => (.ok (), s)
  | (m, package_regex) :: rest =>
    match find_meta_package_by_name s.world m with
    | none => (.error (.notLoaded m), s)
    | some file_path =>
      match config_at s.world file_path with
      | none => (.error (.notLoaded m), s)
      | some meta_package =>
        let names := (match_packages meta_package package_regex).map (fun x => x.1)
        match remove_loop env m package_regex names uninstall_only exit_if_not_installed s with
        | (.error e, s1) => (.error e, s1)
        | (.ok _, s1) => remove env rest uninstall_only exit_if_not_installed s1

/-- `Mcm.unload` (lines 275-287): per name, warn-and-continue when not
loaded, else remove all packages tolerantly and delete the descriptor. -/
def unload (env : Env) (name_list : List String) (s : St) : Res Unit :=
  match name_list with
  | [] => (.ok (), s)
  | name :: rest =>
    match find_meta_package_by_name s.world name with
    | none => unload env rest s
    | some file_path =>
      match remove env [(name, ".*")] false false s with
      | (.error e, s1) => (.error e, s1)
      | (.ok _, s1) =>
        let s2 : St := { world := { s1.world with configs := adel s1.world.configs file_path },
                         events := s1.events ++ [Event.removeFile file_path] }
        unload env rest s2

/-- The package listing of `Mcm.list_packages` for one descriptor: each
declared package's current cache record. -/
def list_meta_pkgs (env : Env) (w : World) (m : String) :
    List (String × Package) → Except Err (List (String × PackageCache))
  | [] => .ok []
  | (p, _) :: rest =>
    match get_package_cache env w m p with
    | .error e => .error e
    | .ok pc =>
      match list_meta_pkgs env w m rest with
      | .error e => .error e
      | .ok tl => .ok ((p, pc) :: tl)

/-- `Mcm.list_packages pretty_print=False` (lines 510-567): map every
loaded descriptor to its packages' records; a duplicate descriptor name
trips the `assert` on line 539. -/
def list_packages_aux (env : Env) (w : World) :
    List (String × Descriptor) → List String →
    Except Err (List (String × List (String × PackageCache)))
  | [], _ => .ok []
  | (_, d) :: rest, seen =>
    if seen.contains d.name then .error .assertFailed
    else
      match list_meta_pkgs env w d.name d.packages with
      | .error e => .error e
      | .ok ps =>
        match list_packages_aux env w rest (seen ++ [d.name]) with
        | .error e => .error e
        | .ok tl => .ok ((d.name, ps) :: tl)

/-- `update_meta_package` inside `Mcm.update` (lines 490-493): re-fetch the
descriptor from its recorded `uri` with `skip_if_loaded=False`.  A
missing descriptor is Python's `None['uri']` `TypeError`; a missing `uri`
key is a `KeyError`. -/
def update_meta_package (env : Env) (m : String) (s : St) : Res Unit :=
  match get_meta_package_by_name s.world m with
  | none => (.error .typeError, s)
  | some d =>
    match d.uri with
    | none => (.error .keyError, s)
    | some uri => load env [uri] false s

/-- The empty-selection branch of `Mcm.update` (lines 496-500): per loaded
meta-package, re-fetch the descriptor then reinstall with pattern `.*`. -/
def update_all (env : Env) (fuel : Nat) (metas : List String) (s : St) : Res Unit :=
  match metas with
  | [] => (.ok (), s)
  | m :: rest =>
    match update_meta_package env m s with
    | (.error e, s1) => (.error e, s1)
    | (.ok _, s1) =>
      match install env fuel [(m, ".*")] false "reinstall" s1 with
      | (.error e, s2) => (.error e, s2)
      | (.ok _, s2) => update_all env fuel rest s2

/-- The non-empty-selection branch of `Mcm.update` (lines 502-508): a
selection without a package component updates only the descriptor; one
with a package component reinstalls with pattern `.*` — the literal
string `'.*'`, not the given pattern (line 508). -/
def update_sel (env : Env) (fuel : Nat) (sels : List (String × Option String))
    (s : St) : Res Unit :=
  match sels with
  | [] => (.ok (), s)
  | (m, package_regex) :: rest =>
    let step : Res Unit :=
      match package_regex with
      | none => update_meta_package env m s
      | some _ => install env fuel [(m, ".*")] false "reinstall" s
    match step with
    | (.error e, s1) => (.error e, s1)
    | (.ok _, s1) => update_sel env fuel rest s1

/-- `Mcm.update` (lines 489-508): list all packages first (errors there
propagate), then dispatch on whether the selection list is empty. -/
def update (env : Env) (fuel : Nat) (sels : List (String × Option String))
    (s : St) : Res Unit :=
  match list_packages_aux env s.world s.world.configs [] with
  | .error e => (.error e, s)
  | .ok packagesMap =>
    if sels.length = 0 then update_all env fuel (packagesMap.map (fun x => x.1)) s
    else update_sel env fuel sels s

/-- The fully-qualified `meta.pkg` token of each `scm` invocation in a
trace (the last argv element), for stating which packages a run touched. -/
def scmTargets (evs : List Event) : List (Option String) :=
  evs.filterMap (fun e => match e with
    | .scmRun argv => argv.getLast?
    | _ => none)

/-- Which events one declared mechanism contributes under the given build
capabilities (for characterising `acquire_loop`). -/
def mechEvents (env : Env) (package_dir : String) (mech : String × String) : List Event :=
  if mech.1 = "git" then
    (if env.usingGitpython then [Event.gitClone package_dir mech.2] else [])
  else if mech.1 = "tar" then
    (if env.usingTarfile then [Event.urlFetch mech.2, Event.tarExtract package_dir mech.2] else [])
  else []

/-- Which entry one declared mechanism contributes to
`possible_installation_mechanisms` (recognised but unsupported kinds). -/
def mechUnavailable (env : Env) (mech : String × String) : List String :=
  if mech.1 = "git" then (if env.usingGitpython then [] else ["git"])
  else if mech.1 = "tar" then (if env.usingTarfile then [] else ["tar"])
  else []

/-- Whether one declared mechanism actually executes under the build. -/
def mechRuns (env : Env) (mech : String × String) : Bool :=
  if mech.1 = "git" then env.usingGitpython
  else if mech.1 = "tar" then env.usingTarfile
  else false

/-! Concrete instances used to evaluate the operations at specific inputs. -/

/-- A concrete engine configuration: tarfile importable, gitpython not,
`scm` always exiting 0, schema validation passing. -/
def env0 : Env :=
  { packages_dir := "PKGS", configs_dir := "CFG", default_target := "HOME",
    hostname := none, tags := [], usingGitpython := false, usingTarfile := true,
    scmExit := fun _ => 0, fetch := fun _ => { name := "m" }, validate := fun _ => true }

/-- A package declaring a single `tar` mechanism and nothing else. -/
def pkg_tar : Package := { installation_mechanisms := some [("tar", "u")] }

/-- A descriptor `m` declaring the single package `p`. -/
def desc_mp : Descriptor := { name := "m", packages := [("p", pkg_tar)] }

/-- A full `installed` record as `_invoke_scm_install` writes it
(hostname key present with value null, like `env0`). -/
def rec_installed (pd : String) : PackageCache :=
  { status := "installed", package_dir := some pd, packages_dir := some "PKGS",
    target_dir := some "HOME", tags := some [], hostname := some none }

/-- World for C2: `m.p` has content on disk and a bare `loaded` record
(exactly what a prior `install --load-only` persists). -/
def w_loaded : World :=
  { configs := [("CFG/m.toml", desc_mp)],
    dirs := ["PKGS/m.p"],
    cache := [("m", [("p", { status := "loaded" })])] }

/-- World for C4: `m.p` is stuck at `midinstall` (interrupted prior run). -/
def w_mid : World :=
  { configs := [("CFG/m.toml", desc_mp)],
    dirs := ["PKGS/m.p"],
    cache := [("m", [("p", { status := "midinstall" })])] }

/-- World for C6: `m.p` is `installed` with a complete record. -/
def w_inst : World :=
  { configs := [("CFG/m.toml", desc_mp)],
    dirs := ["PKGS/m.p"],
    cache := [("m", [("p", rec_installed "PKGS/m.p")])] }

/-- Engine with BOTH acquisition capabilities available (for C9). -/
def env_both : Env := { env0 with usingGitpython := true }

/-- A package declaring a `git` mechanism followed by a `tar` mechanism. -/
def pkg_both : Package := { installation_mechanisms := some [("git", "gu"), ("tar", "tu")] }

/-- Descriptor and world for C9: `m.p` not loaded, two mechanisms. -/
def desc_both : Descriptor := { name := "m", packages := [("p", pkg_both)] }

/-- World for C9. -/
def w_both : World := { configs := [("CFG/m.toml", desc_both)] }

/-- Descriptor for C7: meta-package `m` with packages `a` and `b`. -/
def desc_ab : Descriptor :=
  { name := "m", packages := [("a", pkg_tar), ("b", pkg_tar)], uri := some "u7" }

/-- World for C7: both `a` and `b` are installed. -/
def w_ab : World :=
  { configs := [("CFG/m.toml", desc_ab)],
    dirs := ["PKGS/m.a", "PKGS/m.b"],
    cache := [("m", [("a", rec_installed "PKGS/m.a"), ("b", rec_installed "PKGS/m.b")])] }

/-- Descriptor for C8: packages `a` and `ab`, whose names share a prefix. -/
def desc_aab : Descriptor :=
  { name := "m", packages := [("a", pkg_tar), ("ab", pkg_tar)] }

/-- An empty world: nothing loaded, nothing cached, no package dirs. -/
def w_empty : World := {}

/-- A package declaring one tar mechanism from `uri` (for C5). -/
def pkg0 (uri : String) : Package := { installation_mechanisms := some [("tar", uri)] }

/-- A descriptor declaring the single package `p` as `pkg0 uri` (for C5). -/
def desc0 (m p uri : String) (durl : Option String) : Descriptor :=
  { name := m, packages := [(p, pkg0 uri)], uri := durl }

/-- World for the C5 witness: just the descriptor is loaded. -/
def w_round : World := { configs := [("CFG/m.toml", desc0 "m" "p" "u" none)] }

/-- Engine configured with a hostname override (for C10). -/
def env_h : Env := { env0 with hostname := some "engine-host" }

/-- An installed record whose RECORDED hostname differs from the engine's
current hostname (for C10). -/
def rec_hosted : PackageCache :=
  { status := "installed", package_dir := some "PKGS/m.p", packages_dir := some "PKGS",
    target_dir := some "HOME", tags := some ["t1"], hostname := some (some "recorded-host") }

/-- World for C10: `m.p` installed with `rec_hosted`. -/
def w_hosted : World :=
  { configs := [("CFG/m.toml", desc_mp)], dirs := ["PKGS/m.p"],
    cache := [("m", [("p", rec_hosted)])] }

/-- Exact behaviour of acquisition on a non-empty mechanism list (the
amended C9): the events of EVERY supported mechanism are emitted in
declared order; the recognised-but-unsupported kinds are collected; the
result is success iff some mechanism ran, else the failure names the
declared mechanisms (when none were recorded possible) or the recorded
possible ones. -/
def acquire_spec (env : Env) (m pname : String) (pkg : Package)
    (mechs : List (String × String)) (s : St) : Prop :=
  acquire_package env m pname pkg s =
    ((if mechs.any (mechRuns env) then .ok ()
      else if (mechs.map (mechUnavailable env)).flatten = [] then
        .error (.noSupportedMechanism (mechs.map (fun x => x.1)))
      else .error (.unsupportedMechanisms ((mechs.map (mechUnavailable env)).flatten))),
     { world := { s.world with
         dirs := if mechs.any (mechRuns env) then
             dirs_add s.world.dirs (package_dir_of env m pname)
           else s.world.dirs },
       events := s.events ++ (mechs.map (mechEvents env (package_dir_of env m pname))).flatten })

/-- The argv contract of the remove bridge (C10): the second event of a
run is the `scm` invocation, whose `-B` flag is present iff the RECORDED
hostname is non-null but whose value is the ENGINE's current hostname. -/
def remove_argv_spec (env : Env) (m p : String) (pc : PackageCache) (td : String)
    (tg : List String) (w : World) : Prop :=
  (invoke_scm_remove env m p ⟨w, []⟩).2.events[1]? =
    some (.scmRun (
      [some "scm", some "-f", some "-y", some "-t", some td, some "-d", some env.packages_dir]
      ++ (if (pc.hostname.join).isSome then [some "-B", env.hostname] else [])
      ++ (tg.map (fun t => [some "-T", some t])).flatten
      ++ [some "remove", some (joined_package_name m p)]))

/-- Ordering contract of the install bridge on the fresh path (C3): there
is a cache document holding `midinstall` for the package, one holding
`installed`, and an argv such that on exit 0 the run is exactly
mid-write, subprocess, installed-write (in that order), while on a
non-zero exit the run is mid-write then subprocess, the error carries the
exit code, and the persisted cache is the `midinstall` one. -/
def bridge_install_ordering (env : Env) (m p : String) (td : Option String) (w : World) : Prop :=
  ∃ (midC instC : CacheMap) (argv : List (Option String)),
    (cache_get_pkg midC m p).map PackageCache.status = some "midinstall"
    ∧ (cache_get_pkg instC m p).map PackageCache.status = some "installed"
    ∧ (env.scmExit argv = 0 →
        invoke_scm_install env m p td false ⟨w, []⟩ =
          (.ok (), { world := { w with cache := instC },
                     events := [.cacheWrite midC, .scmRun argv, .cacheWrite instC] }))
    ∧ (env.scmExit argv ≠ 0 →
        invoke_scm_install env m p td false ⟨w, []⟩ =
          (.error (.scmFailed (env.scmExit argv)),
           { world := { w with cache := midC },
             events := [.cacheWrite midC, .scmRun argv] }))

/-- Ordering contract of the remove bridge (C3): mid-write (`midremove`)
strictly before the subprocess, the stable `loaded` write only after exit
0, and on non-zero exit the error carries the code with the cache left at
`midremove`. -/
def bridge_remove_ordering (env : Env) (m p : String) (w : World) : Prop :=
  ∃ (midC loadC : CacheMap) (argv : List (Option String)),
    (cache_get_pkg midC m p).map PackageCache.status = some "midremove"
    ∧ (cache_get_pkg loadC m p).map PackageCache.status = some "loaded"
    ∧ (env.scmExit argv = 0 →
        invoke_scm_remove env m p ⟨w, []⟩ =
          (.ok (), { world := { w with cache := loadC },
                     events := [.cacheWrite midC, .scmRun argv, .cacheWrite loadC] }))
    ∧ (env.scmExit argv ≠ 0 →
        invoke_scm_remove env m p ⟨w, []⟩ =
          (.error (.scmFailed (env.scmExit argv)),
           { world := { w with cache := midC },
             events := [.cacheWrite midC, .scmRun argv] }))

/-- The conclusion of the round-trip claim (C5): starting from `s0`,
installing the selection `(m, p)` succeeds, removing the same selection
then succeeds, and afterwards the package has no cache record and its
content directory no longer exists. -/
def round_trip_ok (env : Env) (fuel : Nat) (m p : String) (s0 : St) : Prop :=
  (install env fuel [(m, p)] false "exit" s0).1 = .ok ()
  ∧ (remove env [(m, p)] false true (install env fuel [(m, p)] false "exit" s0).2).1 = .ok ()
  ∧ cache_get_pkg
      (remove env [(m, p)] false true (install env fuel [(m, p)] false "exit" s0).2).2.world.cache
      m p = none
  ∧ (remove env [(m, p)] false true (install env fuel [(m, p)] false "exit" s0).2).2.world.dirs.contains
      (package_dir_of env m p) = false

end Mcm

namespace Mcm

/-! Theorems.  First, generic lemmas about the association-list, cache and
regex operations; then one theorem (plus witness or counterexample) per
specification claim. -/

theorem alookup_aset_self {α : Type} (l : List (String × α)) (k : String) (v : α) :
    alookup (aset l k v) k = some v := by
  induction l with
  | nil => simp [aset, alookup]
  | cons e rest ih =>
    by_cases h : e.1 == k
    · simp [aset, alookup, h]
    · simp [aset, alookup, h, ih]

theorem alookup_adel_self {α : Type} (l : List (String × α)) (k : String) :
    alookup (adel l k) k = none := by
  induction l with
  | nil => simp [adel, alookup]
  | cons e rest ih =>
    by_cases h : e.1 == k
    · simp [adel, h, ih]
    · simp [adel, alookup, h, ih]

theorem cache_get_set_pkg_self (c : CacheMap) (m p : String) (pc : PackageCache) :
    cache_get_pkg (cache_set_pkg c m p pc) m p = some pc := by
  simp [cache_get_pkg, cache_set_pkg, alookup_aset_self]

theorem cache_get_del_pkg_self (c : CacheMap) (m p : String) :
    cache_get_pkg (cache_del_pkg c m p) m p = none := by
  simp [cache_get_pkg, cache_del_pkg, alookup_aset_self, alookup_adel_self]

theorem ensure_meta_get_pkg (c : CacheMap) (m p : String) :
    cache_get_pkg (ensure_meta c m) m p = cache_get_pkg c m p := by
  unfold ensure_meta
  by_cases h : (alookup c m).isSome
  · simp [h]
  · have hn : alookup c m = none := by
      cases hh : alookup c m <;> simp_all
    simp [h, cache_get_pkg, hn, alookup_aset_self, alookup]

theorem matchHere_iff (r : Regex) (s : List Char) :
    matchHere r s = true ↔ ∃ p t, p ++ t = s ∧ accepts r p = true := by
  induction s generalizing r with
  | nil =>
    constructor
    · intro h
      exact ⟨[], [], rfl, h⟩
    · rintro ⟨p, t, hpt, hp⟩
      have hpnil : p = [] := by
        cases p with
        | nil => rfl
        | cons a q => simp at hpt
      subst hpnil
      exact hp
  | cons c cs ih =>
    constructor
    · intro h
      simp only [matchHere, Bool.or_eq_true] at h
      rcases h with h | h
      · exact ⟨[], c :: cs, rfl, h⟩
      · obtain ⟨p, t, hpt, hp⟩ := (ih (deriv r c)).mp h
        exact ⟨c :: p, t, by simp [hpt], hp⟩
    · rintro ⟨p, t, hpt, hp⟩
      simp only [matchHere, Bool.or_eq_true]
      cases p with
      | nil =>
        left
        exact hp
      | cons a q =>
        have hac : a = c ∧ q ++ t = cs := List.cons_eq_cons.mp hpt
        right
        refine (ih (deriv r c)).mpr ⟨q, t, hac.2, ?_⟩
        rw [← hac.1]
        exact hp

theorem reMatch_dotstar (s : String) : reMatch ".*" s = true := by
  have hp : parseRegex ".*" = some ⟨Regex.seq (Regex.star Regex.dot) Regex.eps, false⟩ := by
    decide
  unfold reMatch
  rw [hp]
  cases hd : s.data with
  | nil => decide
  | cons c cs => simp [matchHere, nullable]

theorem resolveCode_dotstar (d : Descriptor) :
    resolveCode d ".*" = d.packages.map (fun x => x.1) := by
  unfold resolveCode match_packages
  rw [List.filter_eq_self.mpr]
  intro a _
  exact reMatch_dotstar a.1

theorem mem_resolveCode (d : Descriptor) (pat name : String) :
    name ∈ resolveCode d pat ↔ ∃ pkg, (name, pkg) ∈ d.packages ∧ reMatch pat name = true := by
  unfold resolveCode match_packages
  simp only [List.mem_map, List.mem_filter]
  constructor
  · rintro ⟨⟨n, pkg⟩, ⟨hmem, hmatch⟩, rfl⟩
    exact ⟨pkg, hmem, hmatch⟩
  · rintro ⟨pkg, hmem, hmatch⟩
    exact ⟨(name, pkg), ⟨hmem, hmatch⟩, rfl⟩

theorem dirs_add_contains (dirs : List String) (x : String) :
    (dirs_add dirs x).contains x = true := by
  unfold dirs_add
  by_cases h : dirs.contains x = true
  · rw [if_pos h]
    exact h
  · rw [if_neg h]
    simp

theorem dirs_add_idem (dirs : List String) (x : String) :
    dirs_add (dirs_add dirs x) x = dirs_add dirs x := by
  have h := dirs_add_contains dirs x
  show (if (dirs_add dirs x).contains x then dirs_add dirs x else dirs_add dirs x ++ [x])
      = dirs_add dirs x
  rw [h]
  simp

theorem acquire_loop_spec (env : Env) (package_dir : String)
    (mechs : List (String × String)) (s : St) :
    acquire_loop env package_dir mechs s =
      (((mechs.map (mechUnavailable env)).flatten, mechs.any (mechRuns env)),
       { world := { s.world with
           dirs := if mechs.any (mechRuns env) then dirs_add s.world.dirs package_dir
                   else s.world.dirs },
         events := s.events ++ (mechs.map (mechEvents env package_dir)).flatten }) := by
  induction mechs generalizing s with
  | nil => simp [acquire_loop]
  | cons mech rest ih =>
    obtain ⟨name, uri⟩ := mech
    by_cases hg : name = "git"
    · subst hg
      cases hug : env.usingGitpython with
      | true => simp [acquire_loop, ih, mechEvents, mechUnavailable, mechRuns, hug, dirs_add_idem]
      | false =>
        simp [acquire_loop, ih, mechEvents, mechUnavailable, mechRuns, hug]
        simp only [hug, Bool.false_or]
    · by_cases ht : name = "tar"
      · subst ht
        cases hut : env.usingTarfile with
        | true => simp [acquire_loop, ih, mechEvents, mechUnavailable, mechRuns, hut, dirs_add_idem]
        | false =>
          simp [acquire_loop, ih, mechEvents, mechUnavailable, mechRuns, hut]
          simp only [hut, Bool.false_or]
      · simp [acquire_loop, ih, mechEvents, mechUnavailable, mechRuns, hg, ht]
        simp only [if_neg hg, if_neg ht, Bool.false_or]

/-- C2: the claim says a status-`loaded` package under
`install(loadOnly=false, ifInstalled ∈ {exit, skip})` is materialised via
the Installer Bridge, ending `installed`.  The code instead raises the
"Impossible - should only be invoked with uninstalled packages" exception
inside `_invoke_scm_install`: a `loaded` package always has a cache record
(here the bare record written by a prior load-only install), and the
fresh-record path rejects any existing record (line 138-139). -/
theorem C2_loaded_package_hits_impossible :
    (install env0 2 [("m", "p")] false "exit" ⟨w_loaded, []⟩).1 = .error .impossible
  ∧ (install env0 2 [("m", "p")] false "skip" ⟨w_loaded, []⟩).1 = .error .impossible := by
  decide

/-- C4: the claim says observing `midinstall` on a targeted package at
the start of `remove` always raises `CacheCorruptedError`.  With pattern
`.*`, `remove` looks up the status of the *pattern* (line 460): no
directory `PKGS/m..*` exists, so the status reads `notloaded` and the
midinstall package `p` yields `AlreadyAbsent` (or is silently skipped),
never the corruption error — and the world is left untouched. -/
theorem C4_remove_pattern_misses_midinstall :
    remove env0 [("m", ".*")] false true ⟨w_mid, []⟩ =
      (.error (.alreadyAbsent "m" "p"), ⟨w_mid, []⟩)
  ∧ remove env0 [("m", ".*")] false false ⟨w_mid, []⟩ = (.ok (), ⟨w_mid, []⟩) := by
  decide

/-- C6: the claim says `remove` inspects each matched package's own
status, in particular under pattern `.*`.  The code looks up the pattern
instead (line 460): the `installed` package `p` reads as `notloaded`, so
`remove` raises `AlreadyAbsent` (or silently skips) and never
de-materialises `p` — no scm invocation, no state change. -/
theorem C6_remove_pattern_skips_installed :
    remove env0 [("m", ".*")] false true ⟨w_inst, []⟩ =
      (.error (.alreadyAbsent "m" "p"), ⟨w_inst, []⟩)
  ∧ remove env0 [("m", ".*")] false false ⟨w_inst, []⟩ = (.ok (), ⟨w_inst, []⟩) := by
  decide

/-- C7: the claim says `update` with a package component reinstalls
exactly the packages matching the pattern.  The code passes the literal
pattern `.*` to `install` (line 508): updating selection `(m, "a")`
reinstalls both `a` and `b`, although `"b"` does not match `"a"`. -/
theorem C7_update_ignores_pattern :
    (update env0 3 [("m", some "a")] ⟨w_ab, []⟩).1 = .ok ()
  ∧ scmTargets (update env0 3 [("m", some "a")] ⟨w_ab, []⟩).2.events
      = [some "m.a", some "m.b"]
  ∧ reMatch "a" "b" = false := by
  decide

/-- C9 counterexample: the claim says acquisition runs exactly the first
supported mechanism and mechanisms declared after a successful one are
not executed.  With both capabilities present and declaration order
`git` then `tar`, installing the notloaded `m.p` executes BOTH: the trace
contains the git clone and the tar extraction. -/
theorem C9_counterexample :
    Event.gitClone "PKGS/m.p" "gu"
        ∈ (install env_both 2 [("m", "p")] false "exit" ⟨w_both, []⟩).2.events
  ∧ Event.tarExtract "PKGS/m.p" "tu"
        ∈ (install env_both 2 [("m", "p")] false "exit" ⟨w_both, []⟩).2.events := by
  decide

/-- C8 counterexample: the claim says a name is selected only if the
regex matches the whole name.  The code uses `re.match` (prefix-anchored):
pattern `a` selects both `a` and `ab`, although `ab` is not a full match
(the spec-modelled full-match resolution selects only `a`). -/
theorem C8_counterexample :
    resolveCode desc_aab "a" = ["a", "ab"]
  ∧ reFullmatch "a" "ab" = false
  ∧ resolveSpec desc_aab "a" = ["a"] := by
  decide

/-- C8 (amended): selection resolves to the ordered sublist of declared
package names that the pattern matches as a prefix-anchored `re.match`
(some prefix of the name matches the parsed regex), not as a full match;
`.*` still selects all declared packages in declaration order. -/
theorem C8_amended_prefix_match (d : Descriptor) (pat name : String) (pr : PRegex)
    (hp : parseRegex pat = some pr) (he : pr.anchoredEnd = false) :
    resolveCode d ".*" = d.packages.map (fun x => x.1)
  ∧ (name ∈ resolveCode d pat ↔ ∃ pkg, (name, pkg) ∈ d.packages ∧ reMatch pat name = true)
  ∧ (reMatch pat name = true ↔ ∃ p t, p ++ t = name.data ∧ accepts pr.re p = true) := by
  refine ⟨resolveCode_dotstar d, mem_resolveCode d pat name, ?_⟩
  obtain ⟨r0, anch⟩ := pr
  have he2 : anch = false := he
  subst he2
  unfold reMatch
  rw [hp]
  show matchHere r0 name.data = true ↔ ∃ p t, p ++ t = name.data ∧ accepts r0 p = true
  exact matchHere_iff r0 name.data

/-- Witness for C8_amended_prefix_match at descriptor `desc_aab`, pattern
`a` and name `ab`. -/
theorem C8_amended_prefix_match_witness :
    parseRegex "a" = some ⟨Regex.seq (Regex.chr 'a') Regex.eps, false⟩
  ∧ (resolveCode desc_aab ".*" = desc_aab.packages.map (fun x => x.1)
     ∧ ("ab" ∈ resolveCode desc_aab "a" ↔
          ∃ pkg, ("ab", pkg) ∈ desc_aab.packages ∧ reMatch "a" "ab" = true)
     ∧ (reMatch "a" "ab" = true ↔
          ∃ p t, p ++ t = "ab".data ∧ accepts (Regex.seq (Regex.chr 'a') Regex.eps) p = true)) :=
  ⟨by decide,
   C8_amended_prefix_match desc_aab "a" "ab" ⟨Regex.seq (Regex.chr 'a') Regex.eps, false⟩
     (by decide) rfl⟩

/-- C9 (amended): on a `notloaded` package with a non-empty declared
mechanism list, acquisition iterates ALL declared mechanisms in declared
order, executing every one whose kind this build supports (there is no
early exit after the first success), recording recognised-but-unsupported
kinds, and, when no mechanism executed, failing with an error naming the
declared mechanisms (if none were recorded possible) or the recorded
possible mechanisms. -/
theorem C9_amended_acquisition (env : Env) (m pname : String) (pkg : Package)
    (mechs : List (String × String)) (s : St)
    (hm : pkg.installation_mechanisms = some mechs) (hne : mechs ≠ []) :
    acquire_spec env m pname pkg mechs s := by
  unfold acquire_spec acquire_package
  simp only [hm]
  rw [if_neg hne, acquire_loop_spec]
  by_cases h1 : mechs.any (mechRuns env) = true
  · simp [h1]
  · by_cases h2 : (mechs.map (mechUnavailable env)).flatten = []
    · simp [h1, h2]
    · simp [h1, h2]

/-- Witness for C9_amended_acquisition at the two-mechanism package of the
counterexample world. -/
theorem C9_amended_acquisition_witness :
    pkg_both.installation_mechanisms = some [("git", "gu"), ("tar", "tu")]
  ∧ ([("git", "gu"), ("tar", "tu")] : List (String × String)) ≠ []
  ∧ acquire_spec env_both "m" "p" pkg_both [("git", "gu"), ("tar", "tu")] ⟨w_both, []⟩ :=
  ⟨rfl, by decide,
   C9_amended_acquisition env_both "m" "p" pkg_both [("git", "gu"), ("tar", "tu")]
     ⟨w_both, []⟩ rfl (by decide)⟩

/-- C10: when the persisted record's hostname key is non-null the remove
bridge adds `-B`, but the VALUE it passes is the engine's current
`self.hostname` (possibly null), not the recorded hostname; a null or
absent recorded hostname omits the flag entirely.  The second event of
the run is the `scm` invocation with exactly that argv. -/
theorem C10_remove_uses_engine_hostname (env : Env) (m p : String) (w : World)
    (pc : PackageCache) (pd td : String) (tg : List String)
    (h : cache_get_pkg w.cache m p = some pc)
    (hpd : pc.package_dir = some pd) (htd : pc.target_dir = some td)
    (htg : pc.tags = some tg) :
    remove_argv_spec env m p pc td tg w := by
  unfold remove_argv_spec invoke_scm_remove
  simp only [h, hpd, htd, htg]
  unfold scm_remove_argv
  split <;> split <;> simp [write_cache, emit, Option.join]

/-- Witness for C10 at an engine hostname `engine-host` and a record whose
stored hostname is `recorded-host`: the argv carries `-B engine-host`. -/
theorem C10_remove_uses_engine_hostname_witness :
    cache_get_pkg w_hosted.cache "m" "p" = some rec_hosted
  ∧ rec_hosted.package_dir = some "PKGS/m.p"
  ∧ rec_hosted.target_dir = some "HOME"
  ∧ rec_hosted.tags = some ["t1"]
  ∧ remove_argv_spec env_h "m" "p" rec_hosted "HOME" ["t1"] w_hosted :=
  ⟨by decide, rfl, rfl, rfl,
   C10_remove_uses_engine_hostname env_h "m" "p" w_hosted rec_hosted "PKGS/m.p" "HOME" ["t1"]
     (by decide) rfl rfl rfl⟩

/-- C1: the claim says a URI whose descriptor name is not yet present is
fetched, validated and stored.  The code fetches and validates, but then
calls `os.remove(file_path)` unconditionally (line 266) although
`file_path` is `None` on this path — Python raises `TypeError` before
the new file is written, so nothing is stored and the world is unchanged
apart from the fetch itself. -/
theorem C1_fresh_load_type_error (env : Env) (uri : String) (s : St)
    (hnew : find_meta_package_by_name s.world (env.fetch uri).name = none)
    (hval : env.validate (env.fetch uri) = true) :
    load env [uri] true s = (.error .typeError, emit s (.urlFetch uri)) := by
  unfold load load_one
  simp [emit, hnew, hval]

/-- C3: for install and remove of a single package, the `midinstall`
(resp. `midremove`) record is persisted strictly before the `scm`
subprocess runs; the stable `installed` (resp. `loaded`) record is
persisted only after exit code 0; and on a non-zero exit the operation
fails with that exit code while the persisted cache still holds the
mid-transition record — the run's trace is exactly
mid-write, subprocess, (stable-write only on success). -/
theorem C3_bridge_persistence_ordering (env : Env) (m p : String) (td : Option String)
    (w1 w2 : World) (pc : PackageCache) (pd td2 : String) (tg : List String)
    (h1 : cache_get_pkg w1.cache m p = none)
    (h2 : cache_get_pkg w2.cache m p = some pc)
    (hpd : pc.package_dir = some pd) (htd : pc.target_dir = some td2)
    (htg : pc.tags = some tg) :
    bridge_install_ordering env m p td w1 ∧ bridge_remove_ordering env m p w2 := by
  have hg : cache_get_pkg (ensure_meta w1.cache m) m p = none := by
    rw [ensure_meta_get_pkg]
    exact h1
  constructor
  · refine ⟨cache_set_pkg (ensure_meta w1.cache m) m p
        { status := "midinstall", package_dir := some (package_dir_of env m p),
          packages_dir := some env.packages_dir, tags := some env.tags,
          hostname := some env.hostname, target_dir := some (td.getD env.default_target) },
      cache_set_pkg (cache_set_pkg (ensure_meta w1.cache m) m p
        { status := "midinstall", package_dir := some (package_dir_of env m p),
          packages_dir := some env.packages_dir, tags := some env.tags,
          hostname := some env.hostname, target_dir := some (td.getD env.default_target) })
        m p
        { status := "installed", package_dir := some (package_dir_of env m p),
          packages_dir := some env.packages_dir, tags := some env.tags,
          hostname := some env.hostname, target_dir := some (td.getD env.default_target) },
      [some "scm", some "-f", some "-y", some "-t", some (td.getD env.default_target),
        some "-d", some env.packages_dir]
      ++ (if env.hostname.isSome then [some "-B", env.hostname] else [])
      ++ (env.tags.map (fun t => [some "-T", some t])).flatten
      ++ [some "install", some (joined_package_name m p)], ?_, ?_, ?_, ?_⟩
    · simp [cache_get_set_pkg_self]
    · simp [cache_get_set_pkg_self]
    · intro hz
      simp only [List.cons_append, List.nil_append, List.append_assoc] at hz
      unfold invoke_scm_install
      simp [hg, write_cache, emit, scm_install_argv, hz]
    · intro hnz
      simp only [List.cons_append, List.nil_append, List.append_assoc] at hnz
      unfold invoke_scm_install
      simp [hg, write_cache, emit, scm_install_argv, hnz]
  · refine ⟨cache_set_pkg w2.cache m p { pc with status := "midremove" },
      cache_set_pkg (cache_set_pkg w2.cache m p { pc with status := "midremove" }) m p
        { status := "loaded", package_dir := some pd },
      scm_remove_argv env td2 pc.hostname.join tg m p, ?_, ?_, ?_, ?_⟩
    · simp [cache_get_set_pkg_self]
    · simp [cache_get_set_pkg_self]
    · intro hz
      simp only [Option.join, Function.id_def] at hz
      unfold invoke_scm_remove
      simp [h2, hpd, htd, htg, write_cache, emit, hz]
    · intro hnz
      simp only [Option.join, Function.id_def] at hnz
      unfold invoke_scm_remove
      simp [h2, hpd, htd, htg, write_cache, emit, hnz]

/-- Witness for C3 at the concrete engine `env0`, the empty world for the
install side and the installed world for the remove side. -/
theorem C3_bridge_persistence_ordering_witness :
    cache_get_pkg w_empty.cache "m" "p" = none
  ∧ cache_get_pkg w_inst.cache "m" "p" = some (rec_installed "PKGS/m.p")
  ∧ (rec_installed "PKGS/m.p").package_dir = some "PKGS/m.p"
  ∧ (rec_installed "PKGS/m.p").target_dir = some "HOME"
  ∧ (rec_installed "PKGS/m.p").tags = some []
  ∧ (bridge_install_ordering env0 "m" "p" none w_empty
     ∧ bridge_remove_ordering env0 "m" "p" w_inst) :=
  ⟨rfl, by decide, rfl, rfl, rfl,
   C3_bridge_persistence_ordering env0 "m" "p" none w_empty w_inst
     (rec_installed "PKGS/m.p") "PKGS/m.p" "HOME" [] rfl (by decide) rfl rfl rfl⟩

/-- Exact behaviour of `Mcm.remove` on a single exact-name selection whose
package is `installed` with a complete record: persist `midremove`, run
`scm remove`, persist `loaded`, then delete the content directory and the
cache record.  Helper for the round-trip claim. -/
theorem remove_exact_installed (env : Env) (m p fp : String) (d : Descriptor)
    (w1 : World) (evs : List Event) (r : PackageCache) (pd2 td2 : String) (tg2 : List String)
    (hcfg1 : w1.configs = [(fp, d)]) (hdname : d.name = m)
    (hnames : (match_packages d p).map (fun x => x.1) = [p])
    (hr : cache_get_pkg w1.cache m p = some r)
    (hst : r.status = "installed")
    (hpd : r.package_dir = some pd2) (htd : r.target_dir = some td2) (htg : r.tags = some tg2)
    (hdirin : package_dir_of env m p ∈ w1.dirs)
    (hpdin : pd2 ∈ w1.dirs)
    (hscm : ∀ a, env.scmExit a = 0) :
    remove env [(m, p)] false true ⟨w1, evs⟩ =
      (.ok (), ⟨{ w1 with
          dirs := w1.dirs.erase pd2
          cache := cache_del_pkg (cache_set_pkg (cache_set_pkg w1.cache m p
              { r with status := "midremove" }) m p
              { status := "loaded", package_dir := some pd2 }) m p },
        evs ++ [Event.cacheWrite (cache_set_pkg w1.cache m p { r with status := "midremove" }),
          Event.scmRun (scm_remove_argv env td2 r.hostname.join tg2 m p),
          Event.cacheWrite (cache_set_pkg (cache_set_pkg w1.cache m p
            { r with status := "midremove" }) m p
            { status := "loaded", package_dir := some pd2 }),
          Event.rmtree pd2,
          Event.cacheWrite (cache_del_pkg (cache_set_pkg (cache_set_pkg w1.cache m p
            { r with status := "midremove" }) m p
            { status := "loaded", package_dir := some pd2 }) m p)]⟩) := by
  simp [remove, find_meta_package_by_name, config_at, hcfg1, hdname, hnames, remove_loop,
        get_package_cache, hdirin, hr, hst, package_statuses, invoke_scm_remove,
        hpd, htd, htg, hscm, write_cache, emit, cache_get_set_pkg_self, hpdin]

/-- C5: starting from `notloaded`, a successful install of a package by
exact name followed by a successful remove of the same selection returns
the package to `notloaded`: the cache record for the (meta-package,
package) key is deleted and the package content directory no longer
exists. -/
theorem C5_round_trip (env : Env) (m p fp uri : String) (durl : Option String)
    (w0 : World)
    (hcfg : w0.configs = [(fp, desc0 m p uri durl)])
    (htar : env.usingTarfile = true)
    (hscm : ∀ a, env.scmExit a = 0)
    (hdirs : package_dir_of env m p ∉ w0.dirs)
    (hcache : cache_get_pkg w0.cache m p = none)
    (hmatch : reMatch p p = true) :
    round_trip_ok env 2 m p ⟨w0, []⟩ := by
  have hA : install_check env w0 m [(p, pkg0 uri)] "exit" = .ok [(p, pkg0 uri)] := by
    simp [install_check, get_package_cache, hdirs, package_statuses]
  have hB : install_deps (install env 1) false [(p, pkg0 uri)] ⟨w0, []⟩ = (.ok (), ⟨w0, []⟩) := by
    simp [install_deps, install, install_outer, pkg0]
  have hC : acquire_package env m p (pkg0 uri) ⟨w0, []⟩ =
      (.ok (), ⟨{ w0 with dirs := w0.dirs ++ [package_dir_of env m p] },
                [Event.urlFetch uri, Event.tarExtract (package_dir_of env m p) uri]⟩) := by
    simp [acquire_package, acquire_loop, pkg0, htar, dirs_add, hdirs]
  have hg0 : cache_get_pkg (ensure_meta w0.cache m) m p = none := by
    rw [ensure_meta_get_pkg]
    exact hcache
  have hD : invoke_scm_install env m p (some env.default_target) false
      ⟨{ w0 with dirs := w0.dirs ++ [package_dir_of env m p] },
        [Event.urlFetch uri, Event.tarExtract (package_dir_of env m p) uri]⟩ =
      (.ok (), ⟨{ w0 with
                  dirs := w0.dirs ++ [package_dir_of env m p]
                  cache := cache_set_pkg (cache_set_pkg (ensure_meta w0.cache m) m p
                    { status := "midinstall"
                      package_dir := some (package_dir_of env m p)
                      packages_dir := some env.packages_dir
                      tags := some env.tags
                      hostname := some env.hostname
                      target_dir := some env.default_target }) m p
                    { status := "installed"
                      package_dir := some (package_dir_of env m p)
                      packages_dir := some env.packages_dir
                      tags := some env.tags
                      hostname := some env.hostname
                      target_dir := some env.default_target } },
        [Event.urlFetch uri, Event.tarExtract (package_dir_of env m p) uri,
         Event.cacheWrite (cache_set_pkg (ensure_meta w0.cache m) m p
            { status := "midinstall"
              package_dir := some (package_dir_of env m p)
              packages_dir := some env.packages_dir
              tags := some env.tags
              hostname := some env.hostname
              target_dir := some env.default_target }),
         Event.scmRun ([some "scm", some "-f", some "-y", some "-t", some env.default_target,
              some "-d", some env.packages_dir]
            ++ (if env.hostname.isSome then [some "-B", env.hostname] else [])
            ++ (env.tags.map (fun t => [some "-T", some t])).flatten
            ++ [some "install", some (joined_package_name m p)]),
         Event.cacheWrite (cache_set_pkg (cache_set_pkg (ensure_meta w0.cache m) m p
            { status := "midinstall"
              package_dir := some (package_dir_of env m p)
              packages_dir := some env.packages_dir
              tags := some env.tags
              hostname := some env.hostname
              target_dir := some env.default_target }) m p
            { status := "installed"
              package_dir := some (package_dir_of env m p)
              packages_dir := some env.packages_dir
              tags := some env.tags
              hostname := some env.hostname
              target_dir := some env.default_target })]⟩) := by
    unfold invoke_scm_install
    simp [hg0, hscm, write_cache, emit, scm_install_argv]
  have hE : install_main_loop env m [(p, pkg0 uri)] false "exit" ⟨w0, []⟩ =
      invoke_scm_install env m p (some env.default_target) false
        ⟨{ w0 with dirs := w0.dirs ++ [package_dir_of env m p] },
          [Event.urlFetch uri, Event.tarExtract (package_dir_of env m p) uri]⟩ := by
    simp only [pkg0] at hC
    simp [install_main_loop, get_package_cache, hdirs, target_dir_for, pkg0, hC, hD]
  have hE2 := hE.trans hD
  have hI : install env 2 [(m, p)] false "exit" ⟨w0, []⟩ =
      (.ok (), (invoke_scm_install env m p (some env.default_target) false
        ⟨{ w0 with dirs := w0.dirs ++ [package_dir_of env m p] },
          [Event.urlFetch uri, Event.tarExtract (package_dir_of env m p) uri]⟩).2) := by
    have hfind : find_meta_package_by_name w0 m = some fp := by
      simp [find_meta_package_by_name, hcfg, desc0]
    have hat : config_at w0 fp = some (desc0 m p uri durl) := by
      simp [config_at, hcfg]
    have hstep : install env 2 [(m, p)] false "exit" ⟨w0, []⟩
        = install_outer env (install env 1) [(m, p)] false "exit" ⟨w0, []⟩ := rfl
    rw [hstep]
    simp only [pkg0] at hA hB hE2
    simp [install_outer, hfind, hat, desc0, pkg0, match_packages, hmatch, hA, hB, hE2, hD]
  have hRm := remove_exact_installed env m p fp (desc0 m p uri durl)
    { w0 with
      dirs := w0.dirs ++ [package_dir_of env m p]
      cache := cache_set_pkg (cache_set_pkg (ensure_meta w0.cache m) m p
        { status := "midinstall"
          package_dir := some (package_dir_of env m p)
          packages_dir := some env.packages_dir
          tags := some env.tags
          hostname := some env.hostname
          target_dir := some env.default_target }) m p
        { status := "installed"
          package_dir := some (package_dir_of env m p)
          packages_dir := some env.packages_dir
          tags := some env.tags
          hostname := some env.hostname
          target_dir := some env.default_target } }
    [Event.urlFetch uri, Event.tarExtract (package_dir_of env m p) uri,
     Event.cacheWrite (cache_set_pkg (ensure_meta w0.cache m) m p
        { status := "midinstall"
          package_dir := some (package_dir_of env m p)
          packages_dir := some env.packages_dir
          tags := some env.tags
          hostname := some env.hostname
          target_dir := some env.default_target }),
     Event.scmRun ([some "scm", some "-f", some "-y", some "-t", some env.default_target,
          some "-d", some env.packages_dir]
        ++ (if env.hostname.isSome then [some "-B", env.hostname] else [])
        ++ (env.tags.map (fun t => [some "-T", some t])).flatten
        ++ [some "install", some (joined_package_name m p)]),
     Event.cacheWrite (cache_set_pkg (cache_set_pkg (ensure_meta w0.cache m) m p
        { status := "midinstall"
          package_dir := some (package_dir_of env m p)
          packages_dir := some env.packages_dir
          tags := some env.tags
          hostname := some env.hostname
          target_dir := some env.default_target }) m p
        { status := "installed"
          package_dir := some (package_dir_of env m p)
          packages_dir := some env.packages_dir
          tags := some env.tags
          hostname := some env.hostname
          target_dir := some env.default_target })]
    { status := "installed"
      package_dir := some (package_dir_of env m p)
      packages_dir := some env.packages_dir
      tags := some env.tags
      hostname := some env.hostname
      target_dir := some env.default_target }
    (package_dir_of env m p) env.default_target env.tags
    (by simp [hcfg]) rfl
    (by simp [match_packages, desc0, pkg0, hmatch])
    (by exact cache_get_set_pkg_self _ m p _) rfl rfl rfl rfl
    (by simp) (by simp) hscm
  unfold round_trip_ok
  refine ⟨?_, ?_, ?_, ?_⟩
  · simp [hI]
  · simp only [hI, hD]
    simp only [hRm]
  · simp only [hI, hD]
    simp only [hRm]
    simp [cache_get_del_pkg_self]
  · simp only [hI, hD]
    simp only [hRm]
    rw [List.erase_append_right _ (by simpa using hdirs)]
    simp [hdirs]

/-- Witness for C5 at the concrete engine `env0` and a fresh world holding
only the descriptor for `m` with package `p`. -/
theorem C5_round_trip_witness :
    w_round.configs = [("CFG/m.toml", desc0 "m" "p" "u" none)]
  ∧ env0.usingTarfile = true
  ∧ (∀ a, env0.scmExit a = 0)
  ∧ package_dir_of env0 "m" "p" ∉ w_round.dirs
  ∧ cache_get_pkg w_round.cache "m" "p" = none
  ∧ reMatch "p" "p" = true
  ∧ round_trip_ok env0 2 "m" "p" ⟨w_round, []⟩ :=
  ⟨rfl, rfl, fun _ => rfl, by decide, rfl, by decide,
   C5_round_trip env0 "m" "p" "CFG/m.toml" "u" none w_round rfl rfl (fun _ => rfl)
     (by decide) rfl (by decide)⟩

/-- Witness for C1: loading any URI into the empty world. -/
theorem C1_fresh_load_type_error_witness :
    find_meta_package_by_name w_empty (env0.fetch "file:///x/m.toml").name = none
  ∧ env0.validate (env0.fetch "file:///x/m.toml") = true
  ∧ load env0 ["file:///x/m.toml"] true ⟨w_empty, []⟩ =
      (.error .typeError, emit ⟨w_empty, []⟩ (.urlFetch "file:///x/m.toml")) :=
  ⟨rfl, rfl, C1_fresh_load_type_error env0 "file:///x/m.toml" ⟨w_empty, []⟩ rfl rfl⟩

end Mcm

